import Mathlib

/-!
Shallow embedding of `main.py` (6-button game-night buzzer for Raspberry Pi
Pico) together with the single-channel debounce kernel shared with
`buzzer-2p-leds.py`.

Modelling conventions:
* `time.ticks_ms()` timestamps are modelled as unbounded naturals with a
  monotone clock; `time.ticks_diff(now, past)` becomes truncated natural
  subtraction `now - past`.  For every comparison the code performs
  (`diff < DEBOUNCE_MS`, `diff >= RESET_COOLDOWN_MS`,
  `diff >= TIMEOUT_S*1000`) truncated subtraction and the signed difference
  agree whenever `now` is not earlier than `past`, which the monotone clock
  guarantees; hardware tick wrap-around is a real-time concern outside the
  embedding.
* Side-effecting calls (LCD rendering, buzzer playback, `print`) are
  reified as an `Effect` trace returned next to the updated state, so that
  theorems can talk about *which context* performs which side effect.
* The PWM buzzer and the I2C LCD drivers are embedded as trace producers
  over their primitive bus/PWM operations.
-/

/-! ### Configuration constants (USER CONFIG block of `main.py`) -/

def TEAM_NAMES : List String :=
  ["Team 1", "Team 2", "Team 3", "Team 4", "Team 5", "Team 6"]

def BTN_PINS : List Nat := [16, 17, 19, 20, 21, 22]

def LED_PINS : List Nat := [6, 7, 8, 9, 10, 11]

def DEBOUNCE_MS : Nat := 80

def TIMEOUT_S : Nat := 8

def RESET_COOLDOWN_MS : Nat := 400

def LCD_COLS : Nat := 16

def LCD_ROWS : Nat := 2

def VOLUME_DUTY : Nat := 32768

def LED_ACTIVE_HIGH : Bool := true

/-- Number of contestant channels, `len(BTN_PINS)` in the source. -/
def NUM_BTNS : Nat := BTN_PINS.length

/-- Pin value written by `BuzzerGame._led_on`: `1 if LED_ACTIVE_HIGH else 0`. -/
def ledOnValue : Nat := if LED_ACTIVE_HIGH then 1 else 0

/-- Pin value written by `BuzzerGame._led_off`: `0 if LED_ACTIVE_HIGH else 1`. -/
def ledOffValue : Nat := if LED_ACTIVE_HIGH then 0 else 1

/-- A physical pin level `v` is *logically on* when it equals the on-level
chosen by the `LED_ACTIVE_HIGH` polarity layer. -/
def ledIsOn (v : Nat) : Bool := v == ledOnValue

/-! ### Pitch table and melodies -/

def C5 : Int := 523
def D5 : Int := 587
def E5 : Int := 659
def F5 : Int := 698
def G5 : Int := 784
def A5 : Int := 880
def B5 : Int := 988
def C6 : Int := 1047
def D6 : Int := 1175
def E6 : Int := 1319
def F6 : Int := 1397
def G6 : Int := 1568
def A6 : Int := 1760

def START_CHIME : List (Int × Int × Int) := [(C5, 90, 10), (E5, 90, 10), (G5, 120, 0)]

def MELODIES : List (List (Int × Int × Int)) :=
  [ [(E5, 120, 15), (G5, 120, 15), (C6, 160, 0)],
    [(C6, 120, 15), (G5, 120, 15), (E5, 160, 0)],
    [(D5, 100, 10), (F5, 100, 10), (A5, 140, 0)],
    [(F5, 100, 10), (A5, 100, 10), (D6, 140, 0)],
    [(G5, 100, 10), (B5, 100, 10), (E6, 140, 0)],
    [(A5, 100, 10), (C6, 100, 10), (F6, 140, 0)] ]

/-! ### Buzzer (PWM tone generator), class `Buzzer` of `main.py`

The driver is embedded as a producer of primitive PWM operations.  The one
fallible primitive reachable from `play` with integer sequence data is
`self.pwm.freq(int(freq))`, which the hardware rejects for frequencies
outside its supported range; the embedding takes that validity domain as an
arbitrary predicate `freqOk` and models a raised error as truncation of the
operation trace at the failing call (no further operation runs). -/

inductive BuzzOp where
  | setFreq (f : Int)
  | setDuty (v : Nat)
  | sleepMs (ms : Int)
  deriving DecidableEq, Repr

/-- `Buzzer.tone(freq, ms)`: `freq <= 0` delegates to `silence(ms)`;
otherwise set the PWM frequency (fallible), raise the duty to the configured
volume, sleep, and zero the duty.  Returns the emitted operations and
whether the call completed (`false` = `pwm.freq` raised). -/
def toneOps (freqOk : Int → Bool) (volume : Nat) (freq ms : Int) :
    List BuzzOp × Bool :=
  if freq ≤ 0 then ([.setDuty 0, .sleepMs ms], true)
  else if freqOk freq then
    ([.setFreq freq, .setDuty volume, .sleepMs ms, .setDuty 0], true)
  else ([], false)

/-- `Buzzer.silence(ms)`: zero the duty then sleep. -/
def silenceOps (ms : Int) : List BuzzOp := [.setDuty 0, .sleepMs ms]

/-- `Buzzer.play(seq)`: iterate the `(freq, duration, gap)` entries in
order; after each tone, a truthy (nonzero) gap produces a silence.  An
error raised by `pwm.freq` mid-sequence propagates: the remaining entries
are not processed. -/
def playOps (freqOk : Int → Bool) (volume : Nat) :
    List (Int × Int × Int) → List BuzzOp × Bool
  | [] => ([], true)
  | (f, d, g) :: rest =>
    let t := toneOps freqOk volume f d
    if t.2 then
      let gap := if g ≠ 0 then silenceOps g else []
      let r := playOps freqOk volume rest
      (t.1 ++ (gap ++ r.1), r.2)
    else (t.1, false)

/-- Duty level of the PWM output after executing a list of operations,
starting from duty `init`. -/
def dutyAfter (init : Nat) : List BuzzOp → Nat
  | [] => init
  | .setDuty v :: rest => dutyAfter v rest
  | .setFreq _ :: rest => dutyAfter init rest
  | .sleepMs _ :: rest => dutyAfter init rest

/-! ### LCD text helper `center` -/

/-- `center(text, width)` from `main.py`, on the character list of the
text: full-width texts are cut to the first `width` characters, shorter
texts are padded with spaces, the left pad being half the slack rounded
down. -/
def center (text : List Char) (width : Nat) : List Char :=
  if width ≤ text.length then text.take width
  else
    let pad := (width - text.length) / 2
    List.replicate pad ' ' ++ text ++
      List.replicate (width - text.length - pad) ' '

/-! ### Single-channel debounce kernel

`BuzzerGame._irq_btn` / `_irq_a` / `_irq_b` / `_irq_r` all begin with the
same two lines: reject the edge when it is closer than `DEBOUNCE_MS` to the
stored per-channel timestamp, otherwise store the edge time.  This kernel
studies that filter on one channel in isolation. -/

/-- One edge: compare against the stored timestamp `last`; a rejected edge
leaves the timestamp untouched (the handler returns before the
assignment), an accepted edge becomes the new timestamp. -/
def debounceStep (w last now : Nat) : Nat × Bool :=
  if now - last < w then (last, false) else (now, true)

/-- Run the filter over a list of edge times, returning the final stored
timestamp and the per-edge accept flags in order. -/
def debounceRun (w last : Nat) : List Nat → Nat × List Bool
  | [] => (last, [])
  | e :: es =>
    let s := debounceStep w last e
    let r := debounceRun w s.1 es
    (r.1, s.2 :: r.2)

/-- Timestamp of the most recently accepted edge (`t0` when none was
accepted yet), read off a list of edges zipped with their accept flags. -/
def lastAcceptedTs (t0 : Nat) (es : List Nat) (flags : List Bool) : Nat :=
  (es.zip flags).foldl (fun acc p => if p.2 then p.1 else acc) t0

/-! ### Round state machine, class `BuzzerGame` of `main.py`

The mutable fields of `BuzzerGame` (hardware handles aside) become a
record; LED pins hold their written level (`0`/`1`).  Blocking calls made
on the LCD, the buzzer and stdout are reified as `Effect`s in the order
the code issues them.  `lcd_winner` / `lcd_ready` are kept at the helper
granularity: each is one display-driver call sequence. -/

inductive Effect where
  | setLedValue (i : Nat) (v : Nat)
  | lcdShowWinner (name : String)
  | lcdShowReady
  | playMelody (seq : List (Int × Int × Int))
  | printLog (msg : String)
  deriving DecidableEq, Repr

structure GameState where
  round_open : Bool
  winner_idx : Option Nat
  win_ts : Nat
  last_edge : List Nat
  last_r : Nat
  reset_requested : Bool
  last_reset_handled : Nat
  leds : List Nat
  deriving DecidableEq, Repr

/-- State after `BuzzerGame.__init__` (hardware setup, UI and chime aside):
round open, no winner, zeroed timestamps, all LEDs written off. -/
def initState : GameState :=
  { round_open := true
    winner_idx := none
    win_ts := 0
    last_edge := List.replicate NUM_BTNS 0
    last_r := 0
    reset_requested := false
    last_reset_handled := 0
    leds := List.replicate LED_PINS.length ledOffValue }

/-- `BuzzerGame._declare_winner(idx)` at clock reading `now`: close the
round for `idx`, write every LED (winner on, others off, in index order),
render the winner screen, log, and play the team melody (the `try` around
`play` only logs, so the melody is issued unconditionally). -/
def declare_winner (now idx : Nat) (s : GameState) : GameState × List Effect :=
  let name := TEAM_NAMES.getD idx ("Team " ++ toString (idx + 1))
  let melody := MELODIES.getD idx [(C6, 150, 0)]
  let newLeds := (List.range s.leds.length).map
    (fun i => if i = idx then ledOnValue else ledOffValue)
  let ledFx := (List.range s.leds.length).map
    (fun i => Effect.setLedValue i (if i = idx then ledOnValue else ledOffValue))
  ( { s with round_open := false, winner_idx := some idx, win_ts := now,
             leds := newLeds },
    ledFx ++ [.lcdShowWinner name, .printLog ("WIN: " ++ name), .playMelody melody] )

/-- `BuzzerGame._irq_btn(idx)` at clock reading `now`: the falling-edge
callback of contestant button `idx`.  Debounce against
`last_edge[idx]`; on acceptance store the edge time and, while the round
is open, declare the winner *inside the callback*. -/
def irq_btn (now idx : Nat) (s : GameState) : GameState × List Effect :=
  if now - s.last_edge.getD idx 0 < DEBOUNCE_MS then (s, [])
  else
    let s1 := { s with last_edge := s.last_edge.set idx now }
    if s1.round_open then declare_winner now idx s1 else (s1, [])

/-- `BuzzerGame._irq_r(pin)` at clock reading `now`: the reset button's
falling-edge callback.  Debounce against `last_r`; on acceptance store the
edge time and raise the `reset_requested` flag.  No blocking call is made. -/
def irq_r (now : Nat) (s : GameState) : GameState :=
  if now - s.last_r < DEBOUNCE_MS then s
  else { s with last_r := now, reset_requested := true }

/-- `BuzzerGame.reset_round()`: reopen the round, clear the winner, write
all LEDs off, render the ready screen, log, play the start chime. -/
def reset_round (s : GameState) : GameState × List Effect :=
  let offFx := (List.range s.leds.length).map
    (fun i => Effect.setLedValue i ledOffValue)
  ( { s with round_open := true, winner_idx := none,
             leds := s.leds.map (fun _ => ledOffValue) },
    offFx ++ [.lcdShowReady, .printLog "RESET -> READY", .playMelody START_CHIME] )

/-- One iteration of `BuzzerGame.loop()` at clock reading `now` (the body
of the `while True`): handle a pending reset request when the cooldown
since `last_reset_handled` has elapsed (the wait-for-physical-release busy
loop only delays and is invisible to the pure state), then auto-reset when
a declared winner is at least `TIMEOUT_S` seconds old. -/
def loop_iter (now : Nat) (s : GameState) : GameState × List Effect :=
  let step1 :=
    if s.reset_requested then
      if RESET_COOLDOWN_MS ≤ now - s.last_reset_handled then
        reset_round { s with last_reset_handled := now, reset_requested := false }
      else (s, [])
    else (s, [])
  let s1 := step1.1
  let step2 :=
    if !s1.round_open && s1.winner_idx.isSome then
      if TIMEOUT_S * 1000 ≤ now - s1.win_ts then reset_round s1 else (s1, [])
    else (s1, [])
  (step2.1, step1.2 ++ step2.2)

/-! ### Reachable states

Events that can touch the game state after `__init__`: a contestant-button
edge, a reset-button edge, one polling-loop iteration. -/

inductive GameEvent where
  | btn (now idx : Nat)
  | rbtn (now : Nat)
  | poll (now : Nat)

def applyEvent : GameEvent → GameState → GameState
  | .btn now idx, s => (irq_btn now idx s).1
  | .rbtn now, s => irq_r now s
  | .poll now, s => (loop_iter now s).1

inductive Reachable : GameState → Prop where
  | init : Reachable initState
  | step {s : GameState} (e : GameEvent) : Reachable s → Reachable (applyEvent e s)

/-! ### I2C HD44780 display driver, class `I2cLcd` of `main.py`

Embedded as a producer of bus-level events: a PCF8574 byte write, or a
delay.  The backlight bit `self.bl = MASK_BL` is constant, so each driver
method is a pure event-list.  All data values handed to `_pulse_e` are
below `0x100`, hence Python's `data & ~MASK_E` (infinite-width complement)
coincides with masking by `0xFB`. -/

inductive LcdEv where
  | i2cWrite (byte : Nat)
  | delayUs (us : Nat)
  | delayMs (ms : Nat)
  deriving DecidableEq, Repr

def MASK_RS : Nat := 0x01
def MASK_RW : Nat := 0x02
def MASK_E : Nat := 0x04
def MASK_BL : Nat := 0x08

/-- `I2cLcd._write_byte(val)`: one I2C write of `val | self.bl`. -/
def lcdWriteByte (val : Nat) : List LcdEv := [.i2cWrite (val ||| MASK_BL)]

/-- `I2cLcd._pulse_e(data)`: strobe the E line high then low around the
nibble, with the minimum high-time and post-fall settle delays. -/
def lcdPulseE (data : Nat) : List LcdEv :=
  lcdWriteByte (data ||| MASK_E) ++ [.delayUs 1] ++
    lcdWriteByte (data &&& 0xFB) ++ [.delayUs 50]

/-- `I2cLcd._send_nibble(nibble, rs)`: place the nibble on the high data
lines, or in the RS flag for data bytes, and strobe. -/
def lcdSendNibble (nibble rs : Nat) : List LcdEv :=
  let data := (nibble <<< 4) &&& 0xF0
  lcdPulseE (if rs ≠ 0 then data ||| MASK_RS else data)

/-- `I2cLcd._send_byte(val, rs)`: high nibble first, then low nibble. -/
def lcdSendByte (val rs : Nat) : List LcdEv :=
  lcdSendNibble (val >>> 4) rs ++ lcdSendNibble (val &&& 0x0F) rs

/-- `I2cLcd.command(cmd)`: send with `rs = 0`; clear (`0x01`) and home
(`0x02`) get an extra 2 ms completion delay. -/
def lcdCommand (cmd : Nat) : List LcdEv :=
  lcdSendByte cmd 0 ++ (if cmd = 0x01 ∨ cmd = 0x02 then [.delayMs 2] else [])

/-- The bus-event trace of `I2cLcd.__init__` after storing the fields:
settle delay, three wake nibbles `0x03` with their inter-pulse delays,
the 4-bit mode switch nibble `0x02`, then the command sequence
function-set, display-off, clear (plus the explicit extra 2 ms),
entry-mode, display-on. -/
def lcdInitTrace : List LcdEv :=
  lcdWriteByte 0 ++ [.delayMs 50] ++
  lcdSendNibble 0x03 0 ++ [.delayMs 5] ++
  lcdSendNibble 0x03 0 ++ [.delayUs 150] ++
  lcdSendNibble 0x03 0 ++ lcdSendNibble 0x02 0 ++
  lcdCommand 0x28 ++ lcdCommand 0x08 ++
  lcdCommand 0x01 ++ [.delayMs 2] ++
  lcdCommand 0x06 ++ lcdCommand 0x0C

/-! ## Theorems -/

theorem dutyAfter_append (d : Nat) (xs ys : List BuzzOp) :
    dutyAfter d (xs ++ ys) = dutyAfter (dutyAfter d xs) ys := by
  induction xs generalizing d with
  | nil => rfl
  | cons op rest ih => cases op <;> simp [dutyAfter, ih]

theorem dutyAfter_toneOps_ok (freqOk : Int → Bool) (volume d : Nat) (f ms : Int)
    (h : (toneOps freqOk volume f ms).2 = true) :
    dutyAfter d (toneOps freqOk volume f ms).1 = 0 := by
  unfold toneOps at *
  by_cases h1 : f ≤ 0
  · simp [h1, dutyAfter]
  · by_cases h2 : freqOk f
    · simp [h1, h2, dutyAfter]
    · simp [h1, h2] at h

theorem toneOps_fail_trace (freqOk : Int → Bool) (volume : Nat) (f ms : Int)
    (h : (toneOps freqOk volume f ms).2 = false) :
    (toneOps freqOk volume f ms).1 = [] := by
  unfold toneOps at *
  by_cases h1 : f ≤ 0
  · simp [h1] at h
  · by_cases h2 : freqOk f
    · simp [h1, h2] at h
    · simp [h1, h2]

theorem dutyAfter_playOps (freqOk : Int → Bool) (volume : Nat)
    (seq : List (Int × Int × Int)) :
    dutyAfter 0 (playOps freqOk volume seq).1 = 0 := by
  induction seq with
  | nil => rfl
  | cons e rest ih =>
    obtain ⟨f, d, g⟩ := e
    by_cases ht : (toneOps freqOk volume f d).2
    · simp only [playOps, ht, if_pos]
      rw [dutyAfter_append, dutyAfter_append]
      rw [dutyAfter_toneOps_ok freqOk volume 0 f d ht]
      by_cases hg : g ≠ 0
      · simpa [silenceOps, dutyAfter, hg] using ih
      · simpa [hg] using ih
    · simp only [playOps, ht]
      rw [toneOps_fail_trace freqOk volume f d (by simpa using ht)]
      simp [dutyAfter]

theorem playOps_append (freqOk : Int → Bool) (volume : Nat)
    (s1 s2 : List (Int × Int × Int)) :
    playOps freqOk volume (s1 ++ s2) =
      if (playOps freqOk volume s1).2 then
        ((playOps freqOk volume s1).1 ++ (playOps freqOk volume s2).1,
          (playOps freqOk volume s2).2)
      else playOps freqOk volume s1 := by
  induction s1 with
  | nil => simp [playOps]
  | cons e rest ih =>
    obtain ⟨f, d, g⟩ := e
    by_cases ht : (toneOps freqOk volume f d).2
    · simp [playOps, ht, ih]
      by_cases hr : (playOps freqOk volume rest).2 <;> simp [hr]
    · simp [playOps, ht]

/-- Claim C7: `play(sequence)` processes the `(frequency, duration, gap)`
entries strictly in sequence order (a sequence's trace is the concatenation
of its prefix's trace and its suffix's trace whenever the prefix completes,
and stops at the prefix's failure otherwise); a completed entry with a
positive, hardware-accepted frequency and a nonzero gap contributes
frequency-set, duty-at-volume, duration sleep, duty-zero, then the silence
for the gap; and on every exit from `play` — normal completion or early
termination by a `pwm.freq` error raised mid-sequence — the output duty is
zero, for any hardware frequency-validity domain `freqOk`. -/
theorem C7_play_order_and_silence (freqOk : Int → Bool) (volume : Nat) :
    (∀ s1 s2 : List (Int × Int × Int),
      playOps freqOk volume (s1 ++ s2) =
        if (playOps freqOk volume s1).2 then
          ((playOps freqOk volume s1).1 ++ (playOps freqOk volume s2).1,
            (playOps freqOk volume s2).2)
        else playOps freqOk volume s1) ∧
    (∀ f d g : Int, 0 < f → freqOk f = true → g ≠ 0 →
      playOps freqOk volume [(f, d, g)] =
        ([.setFreq f, .setDuty volume, .sleepMs d, .setDuty 0, .setDuty 0,
          .sleepMs g], true)) ∧
    (∀ seq : List (Int × Int × Int), dutyAfter 0 (playOps freqOk volume seq).1 = 0) := by
  refine ⟨playOps_append freqOk volume, ?_, dutyAfter_playOps freqOk volume⟩
  intro f d g hf hok hg
  have h1 : ¬ f ≤ 0 := by omega
  simp [playOps, toneOps, silenceOps, h1, hok, hg]

/-- Witness for C7 at a concrete tone and the start chime. -/
theorem C7_witness :
    playOps (fun _ => true) VOLUME_DUTY [(523, 90, 10)] =
      ([.setFreq 523, .setDuty VOLUME_DUTY, .sleepMs 90, .setDuty 0, .setDuty 0,
        .sleepMs 10], true) ∧
    dutyAfter 0 (playOps (fun _ => true) VOLUME_DUTY START_CHIME).1 = 0 := by
  have h := C7_play_order_and_silence (fun _ => true) VOLUME_DUTY
  exact ⟨h.2.1 523 90 10 (by decide) rfl (by decide), h.2.2 START_CHIME⟩

/-- Claim C8: the `I2cLcd` init sequence issues, in exactly this order, the
power-on settle delay, three wake pulses of nibble `0x03` with their
inter-pulse delays, the mode-switch pulse of nibble `0x02`, then commands
`0x28`, `0x08`, `0x01` (with its longer completion delay), `0x06`, `0x0C`
— spelled out to the byte level on the bus; every byte is sent as two
nibbles, high first, each latched by an E-strobe pulse; and clear (`0x01`)
and home (`0x02`) carry the extra post-command delay. -/
theorem C8_lcd_init_sequence_and_nibble_protocol :
    lcdInitTrace =
      [.i2cWrite 8, .delayMs 50,
       .i2cWrite 60, .delayUs 1, .i2cWrite 56, .delayUs 50, .delayMs 5,
       .i2cWrite 60, .delayUs 1, .i2cWrite 56, .delayUs 50, .delayUs 150,
       .i2cWrite 60, .delayUs 1, .i2cWrite 56, .delayUs 50,
       .i2cWrite 44, .delayUs 1, .i2cWrite 40, .delayUs 50,
       .i2cWrite 44, .delayUs 1, .i2cWrite 40, .delayUs 50,
       .i2cWrite 140, .delayUs 1, .i2cWrite 136, .delayUs 50,
       .i2cWrite 12, .delayUs 1, .i2cWrite 8, .delayUs 50,
       .i2cWrite 140, .delayUs 1, .i2cWrite 136, .delayUs 50,
       .i2cWrite 12, .delayUs 1, .i2cWrite 8, .delayUs 50,
       .i2cWrite 28, .delayUs 1, .i2cWrite 24, .delayUs 50, .delayMs 2, .delayMs 2,
       .i2cWrite 12, .delayUs 1, .i2cWrite 8, .delayUs 50,
       .i2cWrite 108, .delayUs 1, .i2cWrite 104, .delayUs 50,
       .i2cWrite 12, .delayUs 1, .i2cWrite 8, .delayUs 50,
       .i2cWrite 204, .delayUs 1, .i2cWrite 200, .delayUs 50] ∧
    (∀ val rs : Nat,
      lcdSendByte val rs =
        lcdSendNibble (val >>> 4) rs ++ lcdSendNibble (val &&& 0x0F) rs) ∧
    (∀ n rs : Nat,
      lcdSendNibble n rs =
        [.i2cWrite ((if rs ≠ 0 then ((n <<< 4) &&& 0xF0) ||| MASK_RS
            else (n <<< 4) &&& 0xF0) ||| MASK_E ||| MASK_BL),
         .delayUs 1,
         .i2cWrite (((if rs ≠ 0 then ((n <<< 4) &&& 0xF0) ||| MASK_RS
            else (n <<< 4) &&& 0xF0) &&& 0xFB) ||| MASK_BL),
         .delayUs 50]) ∧
    (∀ cmd : Nat,
      lcdCommand cmd =
        lcdSendByte cmd 0 ++ (if cmd = 0x01 ∨ cmd = 0x02 then [.delayMs 2] else [])) := by
  refine ⟨by decide, fun val rs => rfl, ?_, fun cmd => rfl⟩
  intro n rs
  by_cases h : rs ≠ 0 <;> simp [lcdSendNibble, lcdPulseE, lcdWriteByte, h]

/-- Claim C9: `center(text, width)` always returns exactly `width`
characters; a text at least as wide is truncated to its first `width`
characters (so a width-20 label on a 16-column display keeps only its
first 16 characters, nothing wraps), a shorter text is space-padded on
both sides to exactly `width`. -/
theorem C9_center_exact_width (text : List Char) (width : Nat) :
    (center text width).length = width ∧
    (width ≤ text.length → center text width = text.take width) ∧
    (text.length < width →
      center text width =
        List.replicate ((width - text.length) / 2) ' ' ++ text ++
          List.replicate (width - text.length - (width - text.length) / 2) ' ') := by
  refine ⟨?_, ?_, ?_⟩
  · unfold center
    by_cases h : width ≤ text.length
    · simp [h, List.length_take]
    · simp [h]
      omega
  · intro h
    simp [center, h]
  · intro h
    have h2 : ¬ width ≤ text.length := by omega
    simp [center, h2]

/-- Witness for C9: a 20-character label on the 16-column display, and the
padded "READY" banner. -/
theorem C9_witness :
    center "ABCDEFGHIJKLMNOPQRST".toList 16 = "ABCDEFGHIJKLMNOP".toList ∧
    (center "READY".toList 16).length = 16 ∧
    center "READY".toList 16 =
      List.replicate 5 ' ' ++ "READY".toList ++ List.replicate 6 ' ' := by
  have h1 := C9_center_exact_width "ABCDEFGHIJKLMNOPQRST".toList 16
  have h2 := C9_center_exact_width "READY".toList 16
  refine ⟨?_, h2.1, ?_⟩
  · rw [h1.2.1 (by decide)]
    decide
  · rw [h2.2.2 (by decide)]
    decide

theorem debounceRun_append_one (w t0 e : Nat) (es : List Nat) :
    debounceRun w t0 (es ++ [e]) =
      ((debounceStep w (debounceRun w t0 es).1 e).1,
        (debounceRun w t0 es).2 ++ [(debounceStep w (debounceRun w t0 es).1 e).2]) := by
  induction es generalizing t0 with
  | nil => simp [debounceRun]
  | cons x xs ih => simp [debounceRun, ih]

theorem debounceRun_state_lastAccepted (w t0 : Nat) (es : List Nat) :
    (debounceRun w t0 es).1 = lastAcceptedTs t0 es (debounceRun w t0 es).2 := by
  induction es generalizing t0 with
  | nil => rfl
  | cons e es ih =>
    by_cases h : e - t0 < w
    · simpa [debounceRun, debounceStep, lastAcceptedTs, h] using ih t0
    · simpa [debounceRun, debounceStep, lastAcceptedTs, h] using ih e

/-- Claim C10: a rejected edge leaves the channel's stored timestamp
unchanged, so the next edge is accepted exactly when it is at least the
window after the most recently *accepted* edge (not the most recent edge
of any kind); in the burst 100, 150, 200 ms with an 80 ms window — each
gap below the window, total span above it — more than one edge (the first
and the third) is accepted. -/
theorem C10_debounce_anchor_is_last_accepted (w t0 last now e : Nat) (es : List Nat) :
    ((debounceStep w last now).2 = false → (debounceStep w last now).1 = last) ∧
    ((debounceRun w t0 (es ++ [e])).2 =
      (debounceRun w t0 es).2 ++
        [if e - lastAcceptedTs t0 es (debounceRun w t0 es).2 < w then false else true]) ∧
    ((debounceRun 80 0 [100, 150, 200]).2 = [true, false, true]) := by
  refine ⟨?_, ?_, by decide⟩
  · intro h
    by_cases hlt : now - last < w
    · simp [debounceStep, hlt]
    · simp [debounceStep, hlt] at h
  · rw [debounceRun_append_one, ← debounceRun_state_lastAccepted]
    by_cases h : e - (debounceRun w t0 es).1 < w <;> simp [debounceStep, h]

/-- Witness for C10 at concrete edges. -/
theorem C10_witness :
    (debounceStep 80 100 150).1 = 100 ∧
    (debounceRun 80 0 [100, 150, 200]).2 = [true, false, true] := by
  have h := C10_debounce_anchor_is_last_accepted 80 0 100 150 200 []
  exact ⟨h.1 (by decide), h.2.2⟩

theorem getD_range_map {α : Type} (f : Nat → α) (n j : Nat) (d : α) (h : j < n) :
    ((List.range n).map f).getD j d = f j := by
  simp [List.getD, List.getElem?_map, List.getElem?_range, h]

theorem irq_btn_reject (s : GameState) (i t : Nat)
    (h : t - s.last_edge.getD i 0 < DEBOUNCE_MS) :
    irq_btn t i s = (s, []) := by
  unfold irq_btn
  rw [if_pos h]

theorem irq_btn_accept_last_edge (s : GameState) (i t : Nat)
    (h : DEBOUNCE_MS ≤ t - s.last_edge.getD i 0) :
    (irq_btn t i s).1.last_edge = s.last_edge.set i t := by
  have hno : ¬ t - s.last_edge.getD i 0 < DEBOUNCE_MS := by omega
  simp only [List.getD_eq_getElem?_getD] at hno
  by_cases ho : s.round_open <;> simp [irq_btn, hno, ho, declare_winner]

theorem irq_btn_accept_winner (s : GameState) (i t : Nat)
    (h : DEBOUNCE_MS ≤ t - s.last_edge.getD i 0) :
    (irq_btn t i s).1.winner_idx = if s.round_open then some i else s.winner_idx := by
  have hno : ¬ t - s.last_edge.getD i 0 < DEBOUNCE_MS := by omega
  simp only [List.getD_eq_getElem?_getD] at hno
  by_cases ho : s.round_open <;> simp [irq_btn, hno, ho, declare_winner]

theorem irq_btn_accept_open (s : GameState) (i t : Nat)
    (h : DEBOUNCE_MS ≤ t - s.last_edge.getD i 0) (ho : s.round_open = true) :
    (irq_btn t i s).1.round_open = false ∧
    (irq_btn t i s).1.winner_idx = some i ∧
    (irq_btn t i s).1.leds =
      (List.range s.leds.length).map (fun j => if j = i then ledOnValue else ledOffValue) ∧
    (irq_btn t i s).2 =
      (List.range s.leds.length).map
        (fun j => Effect.setLedValue j (if j = i then ledOnValue else ledOffValue)) ++
      [Effect.lcdShowWinner (TEAM_NAMES.getD i ("Team " ++ toString (i + 1))),
       Effect.printLog ("WIN: " ++ TEAM_NAMES.getD i ("Team " ++ toString (i + 1))),
       Effect.playMelody (MELODIES.getD i [(C6, 150, 0)])] := by
  have hno : ¬ t - s.last_edge.getD i 0 < DEBOUNCE_MS := by omega
  simp only [List.getD_eq_getElem?_getD] at hno
  simp [irq_btn, hno, ho, declare_winner]

theorem irq_btn_accept_closed (s : GameState) (i t : Nat)
    (h : DEBOUNCE_MS ≤ t - s.last_edge.getD i 0) (ho : s.round_open = false) :
    irq_btn t i s = ({ s with last_edge := s.last_edge.set i t }, []) := by
  have hno : ¬ t - s.last_edge.getD i 0 < DEBOUNCE_MS := by omega
  simp only [List.getD_eq_getElem?_getD] at hno
  simp [irq_btn, hno, ho]

/-- Claim C1: while the round is open, an accepted (debounced) press on
channel `i` closes the round with winner `i` and drives exactly output
channel `i` logically on, every other output off; an accepted press while
the round is already closed leaves the winner and the outputs (and the
effect trace) unchanged. -/
theorem C1_first_press_wins_exclusive_outputs (s : GameState) (i now : Nat)
    (hacc : DEBOUNCE_MS ≤ now - s.last_edge.getD i 0) :
    (s.round_open = true →
      (irq_btn now i s).1.round_open = false ∧
      (irq_btn now i s).1.winner_idx = some i ∧
      (∀ j, j < s.leds.length →
        (ledIsOn ((irq_btn now i s).1.leds.getD j 0) = true ↔ j = i))) ∧
    (s.round_open = false →
      (irq_btn now i s).1.winner_idx = s.winner_idx ∧
      (irq_btn now i s).1.leds = s.leds ∧
      (irq_btn now i s).2 = []) := by
  constructor
  · intro ho
    obtain ⟨h1, h2, h3, h4⟩ := irq_btn_accept_open s i now hacc ho
    refine ⟨h1, h2, ?_⟩
    intro j hj
    rw [h3, getD_range_map _ _ _ _ hj]
    by_cases hji : j = i
    · subst hji; simp [ledIsOn, ledOnValue, LED_ACTIVE_HIGH]
    · simp [hji, ledIsOn, ledOnValue, ledOffValue, LED_ACTIVE_HIGH]
  · intro ho
    rw [irq_btn_accept_closed s i now hacc ho]
    simp

/-- Witness for C1: channel 1 wins an open round; a later accepted press
on channel 2 changes nothing. -/
theorem C1_witness :
    (irq_btn 1000 1 initState).1.round_open = false ∧
    (irq_btn 1000 1 initState).1.winner_idx = some 1 ∧
    (ledIsOn ((irq_btn 1000 1 initState).1.leds.getD 1 0) = true ↔ 1 = 1) ∧
    (ledIsOn ((irq_btn 1000 1 initState).1.leds.getD 0 0) = true ↔ 0 = 1) ∧
    (irq_btn 1100 2 (irq_btn 1000 1 initState).1).1.winner_idx =
      (irq_btn 1000 1 initState).1.winner_idx := by
  have h1 := (C1_first_press_wins_exclusive_outputs initState 1 1000 (by decide)).1 rfl
  have h2 := (C1_first_press_wins_exclusive_outputs (irq_btn 1000 1 initState).1 2 1100
      (by decide)).2 (by decide)
  exact ⟨h1.1, h1.2.1, h1.2.2 1 (by decide), h1.2.2 0 (by decide), h2.1⟩

/-- Claim C4: once an edge on channel `i` is accepted at `t1`, a second
edge within the debounce window is discarded outright (state and effects
untouched), while a second edge at or beyond the window is accepted and
re-anchors the timestamp; acceptance only *declares a winner* when the
round is open at that moment — the debounce filter itself runs regardless. -/
theorem C4_debounce_window_two_edges (s : GameState) (i t1 t2 : Nat)
    (hlen : s.last_edge.length = NUM_BTNS) (hi : i < NUM_BTNS)
    (h1 : DEBOUNCE_MS ≤ t1 - s.last_edge.getD i 0) :
    ((irq_btn t1 i s).1.last_edge.getD i 0 = t1) ∧
    ((irq_btn t1 i s).1.winner_idx = if s.round_open then some i else s.winner_idx) ∧
    (t2 - t1 < DEBOUNCE_MS →
      irq_btn t2 i (irq_btn t1 i s).1 = ((irq_btn t1 i s).1, [])) ∧
    (DEBOUNCE_MS ≤ t2 - t1 →
      (irq_btn t2 i (irq_btn t1 i s).1).1.last_edge.getD i 0 = t2 ∧
      (irq_btn t2 i (irq_btn t1 i s).1).1.winner_idx =
        if (irq_btn t1 i s).1.round_open then some i
        else (irq_btn t1 i s).1.winner_idx) := by
  have hilt : i < s.last_edge.length := by rw [hlen]; exact hi
  have hedge : (irq_btn t1 i s).1.last_edge.getD i 0 = t1 := by
    rw [irq_btn_accept_last_edge s i t1 h1]
    simp [List.getD, List.getElem?_set, hilt]
  refine ⟨hedge, irq_btn_accept_winner s i t1 h1, ?_, ?_⟩
  · intro hlt
    exact irq_btn_reject _ i t2 (by rw [hedge]; exact hlt)
  · intro hge
    have h2 : DEBOUNCE_MS ≤ t2 - (irq_btn t1 i s).1.last_edge.getD i 0 := by
      rw [hedge]; exact hge
    constructor
    · rw [irq_btn_accept_last_edge _ i t2 h2]
      have : i < (irq_btn t1 i s).1.last_edge.length := by
        rw [irq_btn_accept_last_edge s i t1 h1, List.length_set, hlen]; exact hi
      simp [List.getD, List.getElem?_set, this]
    · exact irq_btn_accept_winner _ i t2 h2

/-- Witness for C4: edges at 100/150 ms (second discarded) and at
100/200 ms (second accepted) on channel 0. -/
theorem C4_witness :
    (irq_btn 100 0 initState).1.last_edge.getD 0 0 = 100 ∧
    irq_btn 150 0 (irq_btn 100 0 initState).1 = ((irq_btn 100 0 initState).1, []) ∧
    (irq_btn 200 0 (irq_btn 100 0 initState).1).1.last_edge.getD 0 0 = 200 := by
  have ha := C4_debounce_window_two_edges initState 0 100 150 (by decide) (by decide)
    (by decide)
  have hb := C4_debounce_window_two_edges initState 0 100 200 (by decide) (by decide)
    (by decide)
  exact ⟨ha.1, ha.2.2.1 (by decide), (hb.2.2.2 (by decide)).1⟩

theorem irq_r_cases (t : Nat) (s : GameState) :
    irq_r t s = s ∨
      irq_r t s = { s with last_r := t, reset_requested := true } := by
  unfold irq_r
  by_cases h : t - s.last_r < DEBOUNCE_MS
  · left; rw [if_pos h]
  · right; rw [if_neg h]

theorem loop_iter_inv (now : Nat) (s : GameState)
    (h : s.winner_idx.isSome = true ↔ s.round_open = false) :
    (loop_iter now s).1.winner_idx.isSome = true ↔
      (loop_iter now s).1.round_open = false := by
  unfold loop_iter
  split_ifs <;> simp_all [reset_round] <;> split_ifs <;> simp_all

theorem irq_btn_inv (now idx : Nat) (s : GameState)
    (h : s.winner_idx.isSome = true ↔ s.round_open = false) :
    (irq_btn now idx s).1.winner_idx.isSome = true ↔
      (irq_btn now idx s).1.round_open = false := by
  unfold irq_btn
  split_ifs <;> simp_all [declare_winner]
  split_ifs <;> simp_all

/-- Claim C3: in every reachable state — boot, after a winner, after every
timeout or explicit reset — the winner field is `some` exactly when the
round is closed: an open round has no winner, a closed round has a winner
index. -/
theorem C3_round_state_invariant (s : GameState) (h : Reachable s) :
    (s.winner_idx.isSome = true ↔ s.round_open = false) ∧
    (s.round_open = true → s.winner_idx = none) ∧
    (s.round_open = false → ∃ i, s.winner_idx = some i) := by
  have main : s.winner_idx.isSome = true ↔ s.round_open = false := by
    induction h with
    | init => simp [initState]
    | @step s0 e hr ih =>
      cases e with
      | btn now idx => exact irq_btn_inv now idx s0 ih
      | rbtn now =>
        rcases irq_r_cases now s0 with heq | heq
        · simp only [applyEvent]; rw [heq]; exact ih
        · simp only [applyEvent]; rw [heq]; simpa using ih
      | poll now => exact loop_iter_inv now s0 ih
  refine ⟨main, ?_, ?_⟩
  · intro ho
    rcases hs : s.winner_idx with _ | i
    · rfl
    · rw [hs] at main
      simp [ho] at main
  · intro hc
    rcases hs : s.winner_idx with _ | i
    · rw [hs] at main
      simp [hc] at main
    · exact ⟨i, rfl⟩

/-- Witness for C3 at the boot state and a reachable closed state. -/
theorem C3_witness :
    (initState.winner_idx.isSome = true ↔ initState.round_open = false) ∧
    ((applyEvent (GameEvent.btn 100 0) initState).winner_idx.isSome = true ↔
      (applyEvent (GameEvent.btn 100 0) initState).round_open = false) := by
  exact ⟨(C3_round_state_invariant initState Reachable.init).1,
    (C3_round_state_invariant _ (Reachable.step (GameEvent.btn 100 0) Reachable.init)).1⟩

/-- Claim C5: when the round is closed with a winner, no reset is pending,
and at least `TIMEOUT_S` seconds have passed since the winner was declared,
the polling iteration performs the automatic reset (round reopened, winner
cleared, ready screen rendered) — and exactly once: every later polling
iteration on the resulting state changes nothing and emits nothing, until
a new winner is declared. -/
theorem C5_timeout_fires_once (s : GameState) (now w : Nat)
    (hclosed : s.round_open = false) (hw : s.winner_idx = some w)
    (hnr : s.reset_requested = false)
    (ht : TIMEOUT_S * 1000 ≤ now - s.win_ts) :
    (loop_iter now s).1.round_open = true ∧
    (loop_iter now s).1.winner_idx = none ∧
    Effect.lcdShowReady ∈ (loop_iter now s).2 ∧
    (∀ later : Nat, loop_iter later (loop_iter now s).1 = ((loop_iter now s).1, [])) := by
  have hstep : loop_iter now s = reset_round s := by
    unfold loop_iter
    simp [hnr, hclosed, hw, ht]
  rw [hstep]
  refine ⟨by simp [reset_round], by simp [reset_round], by simp [reset_round], ?_⟩
  intro later
  unfold loop_iter
  simp [reset_round, hnr]

/-- Witness for C5: winner on channel 0 at 100 ms, poll at 8200 ms resets;
a poll at 9000 ms is a no-op. -/
theorem C5_witness :
    (loop_iter 8200 (irq_btn 100 0 initState).1).1.round_open = true ∧
    (loop_iter 8200 (irq_btn 100 0 initState).1).1.winner_idx = none ∧
    loop_iter 9000 (loop_iter 8200 (irq_btn 100 0 initState).1).1 =
      ((loop_iter 8200 (irq_btn 100 0 initState).1).1, []) := by
  have h := C5_timeout_fires_once (irq_btn 100 0 initState).1 8200 0
    (by decide) (by decide) (by decide) (by decide)
  exact ⟨h.1, h.2.1, h.2.2.2 9000⟩

/-- Claim C6: from either round state, a reset edge that passes the
debounce check raises the request flag, and the polling loop, once the
400 ms cooldown since the last handled reset has elapsed (after waiting
out the physical release), leaves the round open with the winner cleared
and every output LED written logically off. -/
theorem C6_reset_correctness (s0 : GameState) (tr now : Nat)
    (hdeb : DEBOUNCE_MS ≤ tr - s0.last_r)
    (hcool : RESET_COOLDOWN_MS ≤ now - s0.last_reset_handled) :
    (irq_r tr s0).reset_requested = true ∧
    (loop_iter now (irq_r tr s0)).1.round_open = true ∧
    (loop_iter now (irq_r tr s0)).1.winner_idx = none ∧
    (∀ v ∈ (loop_iter now (irq_r tr s0)).1.leds, ledIsOn v = false) := by
  have hno : ¬ tr - s0.last_r < DEBOUNCE_MS := by omega
  have hr : irq_r tr s0 = { s0 with last_r := tr, reset_requested := true } := by
    unfold irq_r; rw [if_neg hno]
  rw [hr]
  refine ⟨rfl, ?_, ?_, ?_⟩
  · unfold loop_iter
    simp [hcool, reset_round]
  · unfold loop_iter
    simp [hcool, reset_round]
  · unfold loop_iter
    simp [hcool, reset_round]
    intro hne
    decide

/-- Witness for C6 from the open boot state and from a closed state. -/
theorem C6_witness :
    (irq_r 200 initState).reset_requested = true ∧
    (loop_iter 500 (irq_r 200 initState)).1.round_open = true ∧
    (loop_iter 500 (irq_r 200 initState)).1.winner_idx = none ∧
    (loop_iter 500 (irq_r 200 (irq_btn 100 0 initState).1)).1.round_open = true ∧
    (loop_iter 500 (irq_r 200 (irq_btn 100 0 initState).1)).1.winner_idx = none := by
  have h1 := C6_reset_correctness initState 200 500 (by decide) (by decide)
  have h2 := C6_reset_correctness (irq_btn 100 0 initState).1 200 500
    (by decide) (by decide)
  exact ⟨h1.1, h1.2.1, h1.2.2.1, h2.2.1, h2.2.2.1⟩

/-- Claim C2 fails on the code: at the boot state, the contestant-press
callback itself (`_irq_btn` at 100 ms on channel 0) closes the round and
emits the display rendering and the melody playback from interrupt
context — there is no `PendingPress` mailbox in `main.py`. -/
theorem C2_counterexample_callback_has_side_effects :
    (irq_btn 100 0 initState).1.round_open = false ∧
    Effect.lcdShowWinner "Team 1" ∈ (irq_btn 100 0 initState).2 ∧
    Effect.playMelody [(E5, 120, 15), (G5, 120, 15), (C6, 160, 0)] ∈
      (irq_btn 100 0 initState).2 := by
  decide

/-- Claim C2, amended: only the *reset* channel follows the
mailbox discipline — its callback just timestamps and raises the
`reset_requested` flag, with the reset side effects performed by the
polling loop when it drains the flag; the contestant-press callback
performs the debounce timestamping and, when the round is open, the whole
OPEN-to-CLOSED transition with its LED/display/tone side effects directly
in interrupt context (and emits nothing when the round is closed). -/
theorem C2_amended_irq_discipline (now idx : Nat) (s : GameState) :
    (irq_r now s = s ∨
      irq_r now s = { s with last_r := now, reset_requested := true }) ∧
    (s.round_open = false → (irq_btn now idx s).2 = []) ∧
    (s.round_open = true → DEBOUNCE_MS ≤ now - s.last_edge.getD idx 0 →
      (irq_btn now idx s).1.round_open = false ∧
      Effect.lcdShowWinner (TEAM_NAMES.getD idx ("Team " ++ toString (idx + 1))) ∈
        (irq_btn now idx s).2 ∧
      Effect.playMelody (MELODIES.getD idx [(C6, 150, 0)]) ∈ (irq_btn now idx s).2) ∧
    (s.reset_requested = true → RESET_COOLDOWN_MS ≤ now - s.last_reset_handled →
      Effect.lcdShowReady ∈ (loop_iter now s).2) := by
  refine ⟨irq_r_cases now s, ?_, ?_, ?_⟩
  · intro ho
    by_cases hd : now - s.last_edge.getD idx 0 < DEBOUNCE_MS
    · rw [irq_btn_reject s idx now hd]
    · rw [irq_btn_accept_closed s idx now (by omega) ho]
  · intro ho hacc
    obtain ⟨h1, h2, h3, h4⟩ := irq_btn_accept_open s idx now hacc ho
    rw [h4]
    exact ⟨h1, by simp, by simp⟩
  · intro hreq hcool
    unfold loop_iter
    simp [hreq, hcool, reset_round]

/-- Witness for the amended C2 at concrete states. -/
theorem C2_witness :
    (irq_btn 900 3 (irq_btn 100 0 initState).1).2 = [] ∧
    Effect.lcdShowWinner "Team 1" ∈ (irq_btn 100 0 initState).2 ∧
    Effect.lcdShowReady ∈ (loop_iter 500 (irq_r 200 initState)).2 := by
  have h1 := C2_amended_irq_discipline 100 0 initState
  have h2 := C2_amended_irq_discipline 900 3 (irq_btn 100 0 initState).1
  have h3 := C2_amended_irq_discipline 500 0 (irq_r 200 initState)
  refine ⟨h2.2.1 (by decide), ?_, h3.2.2.2 (by decide) (by decide)⟩
  have hm := (h1.2.2.1 rfl (by decide)).2.1
  simpa using hm
